import Mathlib

/-!
# DiscogSpotify: incremental pager and lazy image loader

A shallow embedding of the four browser scripts of the repository
(`infinite-scroll.js`, `playlists.js`, `tracks.js`, `lazy-images.js`).

Modelling conventions.
* An `async function` is cut at its `await` points.  The synchronous head of
  `loadMore` runs when a trigger calls it; the rest runs when the awaited
  promise settles.  Suspended invocations are kept in `Feed.pending`, and a
  settle event names the invocation it resumes by its position there.
* JavaScript numbers that hold offsets, limits and counts are the natural
  numbers that are IEEE doubles: the `data-offset` and `data-page-limit`
  attributes are taken to hold non-negative decimal integers (finite as
  doubles), `Number(...)` rounds them to the nearest double, and `+` is
  `numAdd`, which rounds the exact sum to the nearest double, ties to even.
  Sums up to 2^53 are exact.  Pixel quantities are integers.
* DOM elements obtained once by `getElementById` are `Option`/`Bool` fields:
  the constant keeps its value for the life of the page, while a separate
  flag says whether the element is still attached to the document.
-/

set_option linter.unusedVariables false

namespace DiscogSpotify

/-! ## JavaScript values the scripts inspect -/

/-- Unit in the last place of the double nearest to `n`: 1 below 2^53, then
doubling at every power of two (53 significant bits). -/
def ulp (n : Nat) : Nat := 2 ^ (Nat.log2 n - 52)

/-- The double nearest to the natural number `n` (round to nearest, ties to
even), which is again a natural number.  This is `Number(text)` for a decimal
integer text, and the rounding step of every arithmetic operation. -/
def roundToDouble (n : Nat) : Nat :=
  if n < 2 ^ 53 then n
  else
    let u := ulp n
    let q := n / u
    let r := n % u
    if 2 * r < u then q * u
    else if u < 2 * r then (q + 1) * u
    else if q % 2 = 0 then q * u
    else (q + 1) * u

/-- JavaScript `a + b` (and `a += b`) on non-negative integer-valued numbers. -/
def numAdd (a b : Nat) : Nat := roundToDouble (a + b)

/-- The natural number `n` is a double. -/
def Representable (n : Nat) : Prop := roundToDouble n = n

/-- Text content of the manual control. -/
inductive Label
  | busy
  | loadMorePlaylists
  | loadMoreTracks
  | serverText (n : Nat)
  deriving DecidableEq, Repr

/-- The manual control: its `disabled` flag, its text and its `data-offset`
attribute, a decimal integer (`none` when the attribute is absent or empty). -/
structure Button where
  disabled : Bool
  textContent : Label
  dataOffset : Option Nat
  deriving DecidableEq, Repr

/-- An element of a JSON `items` array: JSON `null`, or any other JSON value
(reading a property of it never throws). -/
inductive Item
  | null
  | value (id : Nat)
  deriving DecidableEq, Repr

/-- The result of reading one property of the parsed body. -/
inductive JsVal
  | undefined
  | null
  | bool (b : Bool)
  | num (n : Int)
  | str (s : String)
  | arr (xs : List Item)
  | obj
  deriving DecidableEq, Repr

/-- JavaScript truthiness (`!v` is its negation). -/
def JsVal.truthy : JsVal → Bool
  | JsVal.undefined => false
  | JsVal.null => false
  | JsVal.bool b => b
  | JsVal.num n => n != 0
  | JsVal.str s => s != ""
  | JsVal.arr _ => true
  | JsVal.obj => true

/-- The value `await res.json()` resolves with: JSON `null`, or a value whose
`items` property and continuation property (`next` for playlists,
`next_offset` for tracks) read as given (`undefined` when missing). -/
inductive Data
  | null
  | props (items : JsVal) (cont : JsVal)
  deriving DecidableEq, Repr

/-- The expression `data.items || []` followed by a `forEach` call on it: the
list iterated over, or `none` when the value is truthy but has no `forEach`
(the call throws a `TypeError`). -/
def itemsOrEmpty (v : JsVal) : Option (List Item) :=
  if !v.truthy then some []
  else
    match v with
    | JsVal.arr xs => some xs
    | _ => none

/-! ## infinite-scroll.js -/

namespace InfiniteScroll

/-- What `createInfiniteScroll` leaves installed. -/
inductive Installed
  | nothing
  | observer (rootMargin : Nat)
  | scrollFallback
  deriving DecidableEq, Repr

/-- The statement `nearBottom = innerHeight + scrollY >= offsetHeight - 800` of
`onScroll`, which closes over `rootMargin`; the result says whether `loadMore`
is invoked. -/
def onScroll (rootMargin : Nat) (innerHeight scrollY offsetHeight : Int) : Bool :=
  let nearBottom := decide (innerHeight + scrollY ≥ offsetHeight - 800)
  nearBottom

/-- The function `createInfiniteScroll`; `rootMargin` is the pixel count of the
option, `none` when the caller leaves it out (default `'800px'`). -/
def createInfiniteScroll (sentinel : Bool) (loadMoreIsFunction : Bool)
    (rootMargin : Option Nat) (observerApi : Bool) : Installed :=
  let rootMargin := rootMargin.getD 800
  if !sentinel || !loadMoreIsFunction then Installed.nothing
  else if observerApi then Installed.observer rootMargin
  else Installed.scrollFallback

/-- A scroll event on a window without the observer API: does the listener
installed by `createInfiniteScroll` (if any) call `loadMore`? -/
def scrollInvokesLoadMore (sentinel : Bool) (loadMoreIsFunction : Bool)
    (rootMargin : Option Nat) (innerHeight scrollY offsetHeight : Int) : Bool :=
  match createInfiniteScroll sentinel loadMoreIsFunction rootMargin false with
  | Installed.scrollFallback => onScroll (rootMargin.getD 800) innerHeight scrollY offsetHeight
  | _ => false

end InfiniteScroll

open InfiniteScroll (Installed)

/-! ## State of one feed (playlists.js, tracks.js) -/

/-- Where a suspended invocation of `loadMore` waits. -/
inductive Phase
  | awaitFetch
  | awaitJson
  deriving DecidableEq, Repr

/-- Page state of one feed script. -/
structure Feed where
  /-- The constant `pageLimit` / `limit`. -/
  limit : Nat
  /-- Is `grid` non-null (playlists only). -/
  gridPresent : Bool
  /-- The constant `btn` (`none` for `null`). -/
  btn : Option Button
  /-- Is the button still attached to the document. -/
  btnAttached : Bool
  /-- Is the constant `sentinel` non-null. -/
  sentinelPresent : Bool
  /-- Is the sentinel still attached to the document. -/
  sentinelAttached : Bool
  /-- The sentinel trigger that is live. -/
  trigger : Installed
  offset : Nat
  isLoading : Bool
  /-- Suspended invocations of `loadMore`. -/
  pending : List Phase
  /-- Every `fetch` issued so far: its `offset` and `limit` query parameters. -/
  requests : List (Nat × Nat)
  /-- Items appended to the grid or list, in order. -/
  rendered : List Item
  /-- Number of `console.error` calls. -/
  consoleErrors : Nat
  deriving DecidableEq, Repr

/-- Events of the page: the three trigger sources and the settling of the
promises a suspended `loadMore` waits for. -/
inductive Event
  | click
  | sentinelIntersecting
  | scroll (innerHeight scrollY offsetHeight : Int)
  | fetchRejected (i : Nat)
  | fetchResolved (i : Nat) (ok : Bool)
  | jsonRejected (i : Nat)
  | jsonResolved (i : Nat) (data : Data)
  deriving DecidableEq, Repr

/-- Trigger events (those that can only call `loadMore`). -/
def Event.isTrigger : Event → Bool
  | Event.click => true
  | Event.sentinelIntersecting => true
  | Event.scroll _ _ _ => true
  | _ => false

/-- No invocation of `loadMore` is running. -/
def Feed.Idle (s : Feed) : Prop := s.isLoading = false ∧ s.pending = []

instance (s : Feed) : Decidable s.Idle := by
  unfold Feed.Idle; infer_instance

/-- Number of fetches that were issued and have not settled. -/
def Feed.fetchesInFlight (s : Feed) : Nat :=
  s.pending.countP (fun p => p == Phase.awaitFetch)

/-- The `finally` block of `loadMore`, ending invocation `i`. -/
def finish (i : Nat) (s : Feed) : Feed :=
  { s with isLoading := false, pending := s.pending.eraseIdx i }

/-- Expression `Number(document.body.dataset.pageLimit) || dflt`. -/
def pageLimitOr (attr : Option Nat) (dflt : Nat) : Nat :=
  match attr with
  | some n => if roundToDouble n = 0 then dflt else roundToDouble n
  | none => dflt

/-- What the page holds when a feed script starts. -/
structure PageConfig where
  pageLimitAttr : Option Nat
  playlistIdPresent : Bool
  listPresent : Bool
  btn : Option Button
  sentinelPresent : Bool
  observerApi : Bool
  deriving DecidableEq, Repr

/-! ## playlists.js -/

namespace Playlists

/-- Top level of the script; `listPresent` says whether `#playlists-grid`
exists. -/
def init (c : PageConfig) : Feed :=
  let pageLimit := pageLimitOr c.pageLimitAttr 50
  { limit := pageLimit
    gridPresent := c.listPresent
    btn := c.btn
    btnAttached := c.btn.isSome
    sentinelPresent := c.sentinelPresent
    sentinelAttached := c.sentinelPresent
    trigger := InfiniteScroll.createInfiniteScroll c.sentinelPresent true none c.observerApi
    offset := match c.btn with
      | some b => roundToDouble (b.dataOffset.getD 0)
      | none => pageLimit
    isLoading := false
    pending := []
    requests := []
    rendered := []
    consoleErrors := 0 }

/-- Synchronous head of `loadMore` (lines 13-18): guard, flag, busy button,
`fetch` issued with the current offset. -/
def loadMore (s : Feed) : Feed :=
  if s.isLoading then s
  else
    { s with
      isLoading := true
      btn := s.btn.map (fun b => { b with disabled := true, textContent := Label.busy })
      requests := s.requests ++ [(s.offset, s.limit)]
      pending := s.pending ++ [Phase.awaitFetch] }

/-- The `forEach` of lines 23-41: the cards appended before the loop ended or
threw, and whether it ended normally.  A card cannot be built from a `null`
item (`p.image` throws) nor inserted into a missing grid. -/
def renderItems (gridPresent : Bool) : List Item → List Item × Bool
  | [] => ([], true)
  | p :: ps =>
    if p = Item.null || !gridPresent then ([], false)
    else
      let r := renderItems gridPresent ps
      (p :: r.1, r.2)

/-- The `fetch` promise rejects: the `finally` block runs and the exception
leaves `loadMore` (there is no `catch`). -/
def onFetchRejected (i : Nat) (s : Feed) : Feed := finish i s

/-- The `fetch` promise resolves: `res.json()` is awaited (`res.ok` is not
looked at). -/
def onFetchResolved (i : Nat) (ok : Bool) (s : Feed) : Feed :=
  { s with pending := s.pending.set i Phase.awaitJson }

/-- The promise of `res.json()` rejects. -/
def onJsonRejected (i : Nat) (s : Feed) : Feed := finish i s

/-- The promise of `res.json()` resolves with `data`: lines 23-54. -/
def onJsonResolved (i : Nat) (data : Data) (s : Feed) : Feed :=
  match data with
  | Data.null => finish i s
  | Data.props items next =>
    match itemsOrEmpty items with
    | none => finish i s
    | some xs =>
      let r := renderItems s.gridPresent xs
      let s1 := { s with rendered := s.rendered ++ r.1 }
      if !r.2 || !s.gridPresent then finish i s1
      else
        let s2 := { s1 with offset := numAdd s1.offset xs.length }
        let s3 :=
          if !next.truthy then
            { s2 with btnAttached := false, sentinelAttached := false }
          else
            { s2 with
              btn := s2.btn.map
                (fun b => { b with disabled := false, textContent := Label.loadMorePlaylists }) }
        finish i s3

/-- One event on the playlists page. -/
def step (s : Feed) : Event → Feed
  | Event.click => if s.btn.isSome && s.btnAttached then loadMore s else s
  | Event.sentinelIntersecting =>
    match s.trigger with
    | Installed.observer _ => if s.sentinelAttached then loadMore s else s
    | _ => s
  | Event.scroll ih sy oh =>
    match s.trigger with
    | Installed.scrollFallback => if InfiniteScroll.onScroll 800 ih sy oh then loadMore s else s
    | _ => s
  | Event.fetchRejected i =>
    match s.pending[i]? with
    | some Phase.awaitFetch => onFetchRejected i s
    | _ => s
  | Event.fetchResolved i ok =>
    match s.pending[i]? with
    | some Phase.awaitFetch => onFetchResolved i ok s
    | _ => s
  | Event.jsonRejected i =>
    match s.pending[i]? with
    | some Phase.awaitJson => onJsonRejected i s
    | _ => s
  | Event.jsonResolved i data =>
    match s.pending[i]? with
    | some Phase.awaitJson => onJsonResolved i data s
    | _ => s

/-- A sequence of events. -/
def run (s : Feed) (evs : List Event) : Feed := evs.foldl step s

end Playlists

/-! ## tracks.js (infinite load) -/

namespace Tracks

/-- Top level of the script from line 6 on: `none` when it returns early
(missing playlist id or missing list).  `listPresent` says whether
`#tracks-list` exists. -/
def init (c : PageConfig) : Option Feed :=
  let limit := pageLimitOr c.pageLimitAttr 100
  if !c.playlistIdPresent then none
  else if !c.listPresent then none
  else
    some
      { limit := limit
        gridPresent := true
        btn := c.btn
        btnAttached := c.btn.isSome
        sentinelPresent := c.sentinelPresent
        sentinelAttached := c.sentinelPresent
        trigger := if c.sentinelPresent && c.observerApi then Installed.observer 800
          else Installed.nothing
        offset := match c.btn with
          | some b => roundToDouble (b.dataOffset.getD 0)
          | none => limit
        isLoading := false
        pending := []
        requests := []
        rendered := []
        consoleErrors := 0 }

/-- Synchronous head of `loadMore` (lines 59-68). -/
def loadMore (s : Feed) : Feed :=
  if s.isLoading then s
  else
    { s with
      isLoading := true
      btn := s.btn.map (fun b => { b with disabled := true, textContent := Label.busy })
      requests := s.requests ++ [(s.offset, s.limit)]
      pending := s.pending ++ [Phase.awaitFetch] }

/-- The `forEach` of lines 75-122: the rows appended before the loop ended or
threw, and whether it ended normally (`t.album_img` throws on a `null`
item). -/
def renderItems : List Item → List Item × Bool
  | [] => ([], true)
  | t :: ts =>
    if t = Item.null then ([], false)
    else
      let r := renderItems ts
      (t :: r.1, r.2)

/-- The `catch` block (lines 137-139). -/
def catchBlock (s : Feed) : Feed :=
  { s with
    consoleErrors := s.consoleErrors + 1
    btn := s.btn.map (fun b => { b with disabled := false, textContent := Label.loadMoreTracks }) }

/-- The `fetch` promise rejects. -/
def onFetchRejected (i : Nat) (s : Feed) : Feed := finish i (catchBlock s)

/-- The `fetch` promise resolves: line 70 throws unless `res.ok`, otherwise
`res.json()` is awaited. -/
def onFetchResolved (i : Nat) (ok : Bool) (s : Feed) : Feed :=
  if !ok then finish i (catchBlock s)
  else { s with pending := s.pending.set i Phase.awaitJson }

/-- The promise of `res.json()` rejects. -/
def onJsonRejected (i : Nat) (s : Feed) : Feed := finish i (catchBlock s)

/-- The promise of `res.json()` resolves with `data`: lines 73-142. -/
def onJsonResolved (i : Nat) (data : Data) (s : Feed) : Feed :=
  match data with
  | Data.null => finish i (catchBlock s)
  | Data.props items nextOffset =>
    match itemsOrEmpty items with
    | none => finish i (catchBlock s)
    | some xs =>
      let r := renderItems xs
      let s1 := { s with rendered := s.rendered ++ r.1 }
      if !r.2 then finish i (catchBlock s1)
      else
        let s2 := { s1 with offset := numAdd s1.offset xs.length }
        let s3 :=
          if !nextOffset.truthy || xs.length == 0 then
            { s2 with
              btnAttached := false, sentinelAttached := false, trigger := Installed.nothing }
          else
            { s2 with
              btn := s2.btn.map
                (fun b => { b with disabled := false, textContent := Label.loadMoreTracks,
                                   dataOffset := some s2.offset }) }
        finish i s3

/-- One event on the tracks page (the script installs no scroll listener). -/
def step (s : Feed) : Event → Feed
  | Event.click => if s.btn.isSome && s.btnAttached then loadMore s else s
  | Event.sentinelIntersecting =>
    match s.trigger with
    | Installed.observer _ => if s.sentinelAttached then loadMore s else s
    | _ => s
  | Event.scroll _ _ _ => s
  | Event.fetchRejected i =>
    match s.pending[i]? with
    | some Phase.awaitFetch => onFetchRejected i s
    | _ => s
  | Event.fetchResolved i ok =>
    match s.pending[i]? with
    | some Phase.awaitFetch => onFetchResolved i ok s
    | _ => s
  | Event.jsonRejected i =>
    match s.pending[i]? with
    | some Phase.awaitJson => onJsonRejected i s
    | _ => s
  | Event.jsonResolved i data =>
    match s.pending[i]? with
    | some Phase.awaitJson => onJsonResolved i data s
    | _ => s

/-- A sequence of events. -/
def run (s : Feed) (evs : List Event) : Feed := evs.foldl step s

end Tracks

/-! ## lazy-images.js and the lazy-image part of tracks.js -/

/-- An `img` element: its `src` attribute, its `data-src` attribute and how
often `onload` has been assigned. -/
structure Img where
  src : Option String
  dataSrc : Option String
  onloadAssignments : Nat
  deriving DecidableEq, Repr

/-- The images of the page, the module variable `observer` / `imgObserver`
(non-null or not) and the set of elements it observes (positions in `imgs`). -/
structure ImagePage where
  imgs : List Img
  observerPresent : Bool
  observed : List Nat
  deriving DecidableEq, Repr

/-- Truthiness of `img.dataset.src`: the attribute exists and is not empty. -/
def attrTruthy : Option String → Bool
  | some v => v != ""
  | none => false

/-- The three statements `img.src = src; img.onload = ...;
img.removeAttribute('data-src')`. -/
def promote (img : Img) : Img :=
  { src := img.dataSrc, dataSrc := none, onloadAssignments := img.onloadAssignments + 1 }

/-- The call `observer.observe(img)`: observing an observed element again
changes nothing. -/
def observe (p : ImagePage) (i : Nat) : ImagePage :=
  { p with observed := if i ∈ p.observed then p.observed else p.observed ++ [i] }

/-- The call `observer.unobserve(img)`. -/
def unobserve (p : ImagePage) (i : Nat) : ImagePage :=
  { p with observed := p.observed.filter (fun j => j != i) }

namespace LazyImages

/-- The function `window.observeLazyImage`; `i` names the element, a position
outside `imgs` standing for `null` or `undefined`. -/
def observeLazyImage (p : ImagePage) (i : Nat) : ImagePage :=
  match p.imgs[i]? with
  | none => p
  | some img =>
    if !attrTruthy img.dataSrc then p
    else if p.observerPresent then observe p i
    else { p with imgs := p.imgs.set i (promote img) }

/-- The observer callback (lines 5-17), over entries `(target, isIntersecting)`. -/
def onIntersect (p : ImagePage) : List (Nat × Bool) → ImagePage
  | [] => p
  | entry :: rest =>
    let p1 :=
      if !entry.2 then p
      else
        match p.imgs[entry.1]? with
        | none => p
        | some img =>
          if !attrTruthy img.dataSrc then p
          else unobserve { p with imgs := p.imgs.set entry.1 (promote img) } entry.1
    onIntersect p1 rest

end LazyImages

namespace Tracks

/-- The function `observeImage` (lines 35-43). -/
def observeImage (p : ImagePage) (i : Nat) : ImagePage :=
  match p.imgs[i]? with
  | none => p
  | some img =>
    if !attrTruthy img.dataSrc then p
    else if p.observerPresent then observe p i
    else { p with imgs := p.imgs.set i (promote img) }

/-- The callback of `imgObserver` (lines 20-32), over entries
`(target, isIntersecting)`. -/
def onImageIntersect (p : ImagePage) : List (Nat × Bool) → ImagePage
  | [] => p
  | entry :: rest =>
    let p1 :=
      if !entry.2 then p
      else
        match p.imgs[entry.1]? with
        | none => p
        | some img =>
          let p2 :=
            if attrTruthy img.dataSrc then { p with imgs := p.imgs.set entry.1 (promote img) }
            else p
          unobserve p2 entry.1
    onImageIntersect p1 rest

end Tracks

/-! ## Properties stated over both feeds -/

/-- The loading flag counts the suspended invocations. -/
def Feed.Inv (s : Feed) : Prop := s.pending.length = if s.isLoading then 1 else 0

/-- At most one fetch (indeed at most one invocation of `loadMore`) is in
flight in state `t`, and a trigger that arrives while `isLoading` holds leaves
the whole page state as it is: no request is added, and the offset, the button
and the sentinel keep their values. -/
def MutualExclusion (step : Feed → Event → Feed) (t : Feed) : Prop :=
  t.fetchesInFlight ≤ 1 ∧ t.pending.length ≤ 1 ∧
    (t.isLoading = true → ∀ e : Event, e.isTrigger = true → step t e = t)

/-- A page with a button at offset 50, a sentinel and the observer API. -/
def pageWithObserver : PageConfig :=
  { pageLimitAttr := some 50
    playlistIdPresent := true
    listPresent := true
    btn := some { disabled := false, textContent := Label.serverText 0, dataOffset := some 50 }
    sentinelPresent := true
    observerApi := true }

/-- The same page in a browser without the observer API. -/
def pageWithoutObserver : PageConfig := { pageWithObserver with observerApi := false }

/-- Start state of the playlists feed on `pageWithObserver`. -/
def playlistsStart : Feed := Playlists.init pageWithObserver

/-- Start state of the tracks feed on `pageWithObserver` (see
`tracksStart_eq_init`). -/
def tracksStart : Feed :=
  { limit := 50
    gridPresent := true
    btn := some { disabled := false, textContent := Label.serverText 0, dataOffset := some 50 }
    btnAttached := true
    sentinelPresent := true
    sentinelAttached := true
    trigger := Installed.observer 800
    offset := 50
    isLoading := false
    pending := []
    requests := []
    rendered := []
    consoleErrors := 0 }

/-- State `t`, reached after a load started in `s` failed, still has the
offset of `s` and is idle, and the next call of `loadMore` issues one more
fetch with the query parameters of the failed one. -/
def RetriesSameOffset (loadMore : Feed → Feed) (s t : Feed) : Prop :=
  t.offset = s.offset ∧ t.isLoading = false ∧ t.pending = [] ∧
    (loadMore t).requests = s.requests ++ [(s.offset, s.limit), (s.offset, s.limit)]

/-- A page of fifty items, none of them `null`. -/
def fiftyItems : List Item := (List.range 50).map Item.value

/-- The events of one load that succeeds with fifty items and a truthy
continuation. -/
def fiftyItemLoad (cont : JsVal) : List Event :=
  [Event.click, Event.fetchResolved 0 true,
    Event.jsonResolved 0 (Data.props (JsVal.arr fiftyItems) cont)]

/-- The flag is cleared on every exit of a call of `loadMore` made or resumed
in state `t`: when a call returns without leaving a suspended invocation behind
(the early skip at the guard), and when an event ends a suspended invocation,
`isLoading` is false afterwards. -/
def ClearedOnEveryExit (loadMore : Feed → Feed) (step : Feed → Event → Feed) (t : Feed) : Prop :=
  ((loadMore t).pending.length ≤ t.pending.length → (loadMore t).isLoading = false) ∧
    (∀ e : Event, (step t e).pending.length < t.pending.length → (step t e).isLoading = false)

/-- The flag is set exactly while an invocation is suspended; a call skipped at
the guard changes nothing (the flag stays set); an event that ends the
suspended invocation leaves the feed idle, and a call of `loadMore` made then
issues a fetch at the current offset. -/
def ClearedOnCompletion (loadMore : Feed → Feed) (step : Feed → Event → Feed) (t : Feed) : Prop :=
  (t.isLoading = true ↔ t.pending ≠ []) ∧
    (t.isLoading = true → loadMore t = t) ∧
    (∀ e : Event, (step t e).pending.length < t.pending.length →
      (step t e).Idle ∧
        (loadMore (step t e)).requests =
          (step t e).requests ++ [((step t e).offset, (step t e).limit)] ∧
        (loadMore (step t e)).pending = [Phase.awaitFetch])

/-- Every settling that is not "fetch resolved, go on to parse" ends the
suspended invocation: a rejected fetch, a rejected parse, and a parsed body of
any content (so also one on which reading or rendering throws). -/
def SettlingEndsCall (step : Feed → Event → Feed) (t : Feed) : Prop :=
  (t.pending = [Phase.awaitFetch] → (step t (Event.fetchRejected 0)).pending = []) ∧
    (t.pending = [Phase.awaitJson] →
      (step t (Event.jsonRejected 0)).pending = [] ∧
        ∀ data : Data, (step t (Event.jsonResolved 0 data)).pending = [])

/-- State `t` after a page without items: nothing rendered, offset kept, feed
idle, button and sentinel and trigger as in `s`, button enabled under the
idle label `label`. -/
def EmptyPageKept (label : Label) (s t : Feed) : Prop :=
  t.rendered = s.rendered ∧ t.offset = s.offset ∧ t.Idle ∧
    t.btnAttached = s.btnAttached ∧ t.sentinelAttached = s.sentinelAttached ∧
    t.trigger = s.trigger ∧
    t.btn = s.btn.map (fun b => { b with disabled := false, textContent := label })

/-- The page of `pageWithObserver` with `data-offset="9007199254740992"`
(2^53) on the button. -/
def hugeOffsetPage : PageConfig :=
  { pageWithObserver with
    btn := some { disabled := false, textContent := Label.serverText 0,
                  dataOffset := some (2 ^ 53) } }

/-- The page of `pageWithObserver` without the `#playlists-grid` element. -/
def gridlessPage : PageConfig := { pageWithObserver with listPresent := false }

/-- A page of twelve items, none of them `null`. -/
def twelveItems : List Item := (List.range 12).map Item.value

/-- One load, started by `e`, that succeeds with body `data`. -/
def loadWith (e : Event) (data : Data) : List Event :=
  [e, Event.fetchResolved 0 true, Event.jsonResolved 0 data]

/-- A page with two lazy images, the first one pending, observed by an
observer. -/
def imagePage : ImagePage :=
  { imgs := [{ src := none, dataSrc := some "cover.jpg", onloadAssignments := 0 },
             { src := none, dataSrc := some "other.jpg", onloadAssignments := 0 }]
    observerPresent := true
    observed := [0, 1] }

/-- The element at position `i` has been promoted in `p`: its `src` holds the
former pending source and it has no `data-src` attribute. -/
def Promoted (p : ImagePage) (i : Nat) (img : Img) : Prop :=
  p.imgs[i]? = some (promote img)

/-! ## Lemmas on numbers -/

theorem ulp_pos (n : Nat) : 0 < ulp n := Nat.two_pow_pos _

theorem ulp_spec (n : Nat) : n < 2 ^ 53 * ulp n ∧ (ulp n = 1 ∨ 2 ^ 52 * ulp n ≤ n) := by
  unfold ulp
  by_cases h : Nat.log2 n < 52
  · have h0 : Nat.log2 n - 52 = 0 := by omega
    rw [h0]
    have h1 : n < 2 ^ (Nat.log2 n + 1) := Nat.lt_log2_self
    have h2 : 2 ^ (Nat.log2 n + 1) ≤ 2 ^ 52 := Nat.pow_le_pow_right (by decide) (by omega)
    constructor
    · have : (2:Nat) ^ 52 < 2 ^ 53 * 2 ^ 0 := by norm_num
      omega
    · left; rfl
  · have hL : 52 ≤ Nat.log2 n := by omega
    have hn : n ≠ 0 := by
      intro h0; rw [h0, Nat.log2_zero] at hL; omega
    have h1 : n < 2 ^ (Nat.log2 n + 1) := Nat.lt_log2_self
    have h2 : 2 ^ Nat.log2 n ≤ n := Nat.log2_self_le hn
    have e1 : 2 ^ 53 * 2 ^ (Nat.log2 n - 52) = 2 ^ (Nat.log2 n + 1) := by
      rw [← Nat.pow_add]; congr 1; omega
    have e2 : 2 ^ 52 * 2 ^ (Nat.log2 n - 52) = 2 ^ Nat.log2 n := by
      rw [← Nat.pow_add]; congr 1; omega
    exact ⟨by rw [e1]; exact h1, Or.inr (by rw [e2]; exact h2)⟩

theorem ulp_unique (n j : Nat) (h1 : n < 2 ^ 53 * 2 ^ j) (h2 : j = 0 ∨ 2 ^ 52 * 2 ^ j ≤ n) :
    ulp n = 2 ^ j := by
  obtain ⟨s1, s2⟩ := ulp_spec n
  unfold ulp at *
  generalize Nat.log2 n - 52 = k at *
  congr 1
  rcases Nat.lt_trichotomy k j with hlt | heq | hgt
  · exfalso
    have hj : j ≠ 0 := by omega
    have h2' : 2 ^ 52 * 2 ^ j ≤ n := by
      rcases h2 with h | h
      · exact absurd h hj
      · exact h
    have : 2 ^ (k + 1) ≤ 2 ^ j := Nat.pow_le_pow_right (by decide) hlt
    have e : 2 ^ (k + 1) = 2 * 2 ^ k := by rw [Nat.pow_succ]; omega
    have : 2 ^ 53 * 2 ^ k ≤ 2 ^ 52 * 2 ^ j := by
      have : 2 ^ 52 * (2 * 2 ^ k) ≤ 2 ^ 52 * 2 ^ j := Nat.mul_le_mul_left _ (by omega)
      omega
    omega
  · exact heq
  · exfalso
    have hk : k ≠ 0 := by omega
    have s2' : 2 ^ 52 * 2 ^ k ≤ n := by
      rcases s2 with h | h
      · exfalso
        have : 2 ^ 1 ≤ 2 ^ k := Nat.pow_le_pow_right (by decide) (by omega)
        omega
      · exact h
    have : 2 ^ (j + 1) ≤ 2 ^ k := Nat.pow_le_pow_right (by decide) hgt
    have e : 2 ^ (j + 1) = 2 * 2 ^ j := by rw [Nat.pow_succ]; omega
    have : 2 ^ 52 * (2 * 2 ^ j) ≤ 2 ^ 52 * 2 ^ k := Nat.mul_le_mul_left _ (by omega)
    omega

theorem roundToDouble_of_lt {n : Nat} (h : n < 2 ^ 53) : roundToDouble n = n := by
  unfold roundToDouble
  rw [if_pos h]

/-- The result is one of the two neighbouring multiples of the unit. -/
theorem roundToDouble_cases (n : Nat) (h : ¬ n < 2 ^ 53) :
    roundToDouble n = n / ulp n * ulp n ∨ roundToDouble n = (n / ulp n + 1) * ulp n := by
  unfold roundToDouble
  rw [if_neg h]
  dsimp only
  split
  · exact Or.inl rfl
  · split
    · exact Or.inr rfl
    · split
      · exact Or.inl rfl
      · exact Or.inr rfl

theorem floor_le_roundToDouble (n : Nat) : n / ulp n * ulp n ≤ roundToDouble n := by
  by_cases h : n < 2 ^ 53
  · rw [roundToDouble_of_lt h]; exact Nat.div_mul_le_self _ _
  · rcases roundToDouble_cases n h with e | e <;> rw [e]
    exact Nat.mul_le_mul_right _ (Nat.le_succ _)

theorem roundToDouble_of_dvd {n : Nat} (h : ulp n ∣ n) : roundToDouble n = n := by
  by_cases hlt : n < 2 ^ 53
  · exact roundToDouble_of_lt hlt
  · unfold roundToDouble
    rw [if_neg hlt]
    have hm : n % ulp n = 0 := Nat.mod_eq_zero_of_dvd h
    have hp := ulp_pos n
    simp only [hm, Nat.mul_zero, hp, if_true]
    exact Nat.div_mul_cancel h

theorem dvd_of_representable {n : Nat} (h : Representable n) : ulp n ∣ n := by
  unfold Representable at h
  by_cases hlt : n < 2 ^ 53
  · have : ulp n = 1 := by
      have := ulp_unique n 0 (by simpa using hlt) (Or.inl rfl)
      simpa using this
    rw [this]; exact one_dvd _
  · rcases roundToDouble_cases n hlt with e | e <;> rw [h] at e
    · exact ⟨n / ulp n, by rw [Nat.mul_comm]; exact e⟩
    · exact ⟨n / ulp n + 1, by rw [Nat.mul_comm]; exact e⟩

theorem le_floor_of_representable {a n : Nat} (ha : Representable a) (h : a ≤ n) :
    a ≤ n / ulp n * ulp n := by
  have hd := dvd_of_representable ha
  obtain ⟨a1, a2⟩ := ulp_spec a
  obtain ⟨n1, n2⟩ := ulp_spec n
  have hpa := ulp_pos a
  have hpn := ulp_pos n
  by_cases he : ulp a = ulp n
  · rw [he] at hd
    obtain ⟨k, hk⟩ := hd
    have : k ≤ n / ulp n := (Nat.le_div_iff_mul_le hpn).mpr (by rw [Nat.mul_comm]; omega)
    calc a = ulp n * k := hk
      _ = k * ulp n := Nat.mul_comm _ _
      _ ≤ n / ulp n * ulp n := Nat.mul_le_mul_right _ this
  · -- the units differ, so the unit of `n` is at least twice that of `a`
    have hlt : 2 * ulp a ≤ ulp n := by
      unfold ulp at he ⊢
      have hmono : Nat.log2 a - 52 ≤ Nat.log2 n - 52 := by
        by_cases h0 : a = 0
        · subst h0; simp [Nat.log2_zero]
        · have : Nat.log2 a ≤ Nat.log2 n :=
            (Nat.le_log2 (by omega)).mpr (le_trans (Nat.log2_self_le h0) h)
          omega
      have hne : Nat.log2 a - 52 ≠ Nat.log2 n - 52 := fun hh => he (by rw [hh])
      have : 2 ^ (Nat.log2 a - 52 + 1) ≤ 2 ^ (Nat.log2 n - 52) :=
        Nat.pow_le_pow_right (by decide) (by omega)
      rw [Nat.pow_succ] at this
      omega
    have hn1 : ulp n ≠ 1 := by omega
    have n2' : 2 ^ 52 * ulp n ≤ n := by
      rcases n2 with h1 | h1
      · exact absurd h1 hn1
      · exact h1
    have hq : 2 ^ 52 ≤ n / ulp n := (Nat.le_div_iff_mul_le hpn).mpr n2'
    have : 2 ^ 52 * ulp n ≤ n / ulp n * ulp n := Nat.mul_le_mul_right _ hq
    omega

theorem le_roundToDouble_of_representable {a n : Nat} (ha : Representable a) (h : a ≤ n) :
    a ≤ roundToDouble n :=
  le_trans (le_floor_of_representable ha h) (floor_le_roundToDouble n)

theorem representable_roundToDouble (n : Nat) : Representable (roundToDouble n) := by
  by_cases h : n < 2 ^ 53
  · unfold Representable; rw [roundToDouble_of_lt h, roundToDouble_of_lt h]
  · apply roundToDouble_of_dvd
    obtain ⟨n1, n2⟩ := ulp_spec n
    have hpn := ulp_pos n
    have hn1 : ulp n ≠ 1 := by
      intro h1; rw [h1] at n1; omega
    have n2' : 2 ^ 52 * ulp n ≤ n := by
      rcases n2 with h1 | h1
      · exact absurd h1 hn1
      · exact h1
    have hq1 : 2 ^ 52 ≤ n / ulp n := (Nat.le_div_iff_mul_le hpn).mpr n2'
    have hq2 : n / ulp n < 2 ^ 53 := (Nat.div_lt_iff_lt_mul hpn).mpr n1
    obtain ⟨j, hj⟩ : ∃ j, ulp n = 2 ^ j := ⟨_, rfl⟩
    have hj0 : j ≠ 0 := by
      intro h0; rw [h0] at hj; exact hn1 (by simpa using hj)
    -- the result is `m * ulp n` with `2 ^ 52 ≤ m ≤ 2 ^ 53`
    have key : ∀ m : Nat, 2 ^ 52 ≤ m → m ≤ 2 ^ 53 → ulp (m * ulp n) ∣ m * ulp n := by
      intro m hm1 hm2
      by_cases hm : m < 2 ^ 53
      · have : ulp (m * ulp n) = 2 ^ j := by
          apply ulp_unique
          · rw [hj]; exact Nat.mul_lt_mul_of_pos_right hm (Nat.two_pow_pos _)
          · right; rw [hj]; exact Nat.mul_le_mul_right _ hm1
        rw [this, hj]; exact Nat.dvd_mul_left _ _
      · have hm' : m = 2 ^ 53 := by omega
        have e2 : (2 : Nat) ^ (j + 1) = 2 * 2 ^ j := by ring
        have hp := Nat.two_pow_pos j
        have : ulp (m * ulp n) = 2 ^ (j + 1) := by
          apply ulp_unique
          · rw [hj, hm', e2]; omega
          · right; rw [hj, hm', e2]; omega
        rw [this, hj, hm', e2]
        exact ⟨2 ^ 52, by ring⟩
    rcases roundToDouble_cases n h with e | e <;> rw [e]
    · exact key _ hq1 (by omega)
    · exact key _ (by omega) (by omega)

theorem numAdd_exact {a b : Nat} (h : a + b ≤ 2 ^ 53) : numAdd a b = a + b := by
  unfold numAdd
  rcases Nat.lt_or_ge (a + b) (2 ^ 53) with hlt | hge
  · exact roundToDouble_of_lt hlt
  · have e : a + b = 2 ^ 53 := by omega
    rw [e]
    apply roundToDouble_of_dvd
    have : ulp (2 ^ 53) = 2 ^ 1 := by
      apply ulp_unique <;> norm_num
    rw [this]; norm_num

theorem le_numAdd {a : Nat} (ha : Representable a) (b : Nat) : a ≤ numAdd a b :=
  le_roundToDouble_of_representable ha (Nat.le_add_right a b)

theorem numAdd_two_pow_53_one : numAdd (2 ^ 53) 1 = 2 ^ 53 := by
  unfold numAdd roundToDouble
  have hu : ulp (2 ^ 53 + 1) = 2 ^ 1 := by
    apply ulp_unique <;> norm_num
  rw [if_neg (by norm_num)]
  simp only [hu]
  norm_num

/-! ## Lemmas on the step functions -/

theorem tracksStart_eq_init : Tracks.init pageWithObserver = some tracksStart := by
  decide

theorem finish_inv (i : Nat) (s : Feed) (h : s.pending.length ≤ 1) (hi : i < s.pending.length) :
    (finish i s).Inv := by
  have h1 : s.pending.length = 1 := by omega
  have h0 : i = 0 := by omega
  simp [Feed.Inv, finish, List.length_eraseIdx, h1, h0]

theorem finish_idle (i : Nat) (s : Feed) (h : s.pending.length ≤ 1) (hi : i < s.pending.length) :
    (finish i s).Idle := by
  have h1 : s.pending.length = 1 := by omega
  have h0 : i = 0 := by omega
  have h2 : ((finish i s).pending).length = 0 := by
    simp [finish, List.length_eraseIdx, h1, h0]
  exact ⟨rfl, List.length_eq_zero.mp h2⟩

theorem Feed.Inv.length_le {s : Feed} (h : s.Inv) : s.pending.length ≤ 1 := by
  unfold Feed.Inv at h; split at h <;> omega

theorem Feed.Idle.inv {s : Feed} (h : s.Idle) : s.Inv := by
  simp [Feed.Inv, h.1, h.2]

theorem playlists_loadMore_of_loading {s : Feed} (h : s.isLoading = true) :
    Playlists.loadMore s = s := by
  simp [Playlists.loadMore, h]

theorem tracks_loadMore_of_loading {s : Feed} (h : s.isLoading = true) :
    Tracks.loadMore s = s := by
  simp [Tracks.loadMore, h]

theorem playlists_step_trigger_of_loading {s : Feed} (h : s.isLoading = true) {e : Event}
    (he : e.isTrigger = true) : Playlists.step s e = s := by
  cases e <;> simp [Event.isTrigger] at he <;>
    simp only [Playlists.step, playlists_loadMore_of_loading h] <;> repeat (split <;> try rfl)

theorem tracks_step_trigger_of_loading {s : Feed} (h : s.isLoading = true) {e : Event}
    (he : e.isTrigger = true) : Tracks.step s e = s := by
  cases e <;> simp [Event.isTrigger] at he <;>
    simp only [Tracks.step, tracks_loadMore_of_loading h] <;> repeat (split <;> try rfl)

theorem playlists_loadMore_inv {s : Feed} (h : s.Inv) : (Playlists.loadMore s).Inv := by
  unfold Playlists.loadMore
  cases hl : s.isLoading
  · simp [Feed.Inv, hl] at h ⊢; simp [h]
  · simpa using h

theorem tracks_loadMore_inv {s : Feed} (h : s.Inv) : (Tracks.loadMore s).Inv := by
  unfold Tracks.loadMore
  cases hl : s.isLoading
  · simp [Feed.Inv, hl] at h ⊢; simp [h]
  · simpa using h

/-- The body of `loadMore` after the parse always ends in the `finally` block,
keeps the list of suspended invocations, and leaves the offset as it is or
adds a length to it (playlists.js). -/
theorem playlists_onJsonResolved_eq_finish (i : Nat) (data : Data) (s : Feed) :
    ∃ s1 : Feed, Playlists.onJsonResolved i data s = finish i s1 ∧ s1.pending = s.pending ∧
      (s1.offset = s.offset ∨ ∃ k : Nat, s1.offset = numAdd s.offset k) := by
  unfold Playlists.onJsonResolved
  split
  · exact ⟨_, rfl, rfl, Or.inl rfl⟩
  · split
    · exact ⟨_, rfl, rfl, Or.inl rfl⟩
    · dsimp only
      split
      · exact ⟨_, rfl, rfl, Or.inl rfl⟩
      · split <;> exact ⟨_, rfl, rfl, Or.inr ⟨_, rfl⟩⟩

/-- The body of `loadMore` after the parse always ends in the `finally` block,
keeps the list of suspended invocations, and leaves the offset as it is or
adds a length to it (tracks.js). -/
theorem tracks_onJsonResolved_eq_finish (i : Nat) (data : Data) (s : Feed) :
    ∃ s1 : Feed, Tracks.onJsonResolved i data s = finish i s1 ∧ s1.pending = s.pending ∧
      (s1.offset = s.offset ∨ ∃ k : Nat, s1.offset = numAdd s.offset k) := by
  unfold Tracks.onJsonResolved
  split
  · exact ⟨_, rfl, rfl, Or.inl rfl⟩
  · split
    · exact ⟨_, rfl, rfl, Or.inl rfl⟩
    · dsimp only
      split
      · exact ⟨_, rfl, rfl, Or.inl rfl⟩
      · split <;> exact ⟨_, rfl, rfl, Or.inr ⟨_, rfl⟩⟩

theorem pending_lt {s : Feed} {i : Nat} {p : Phase} (hp : s.pending[i]? = some p) :
    i < s.pending.length := by
  obtain ⟨hi, _⟩ := List.getElem?_eq_some_iff.mp hp
  exact hi

theorem fetchesInFlight_le (s : Feed) : s.fetchesInFlight ≤ s.pending.length :=
  List.countP_le_length _

theorem playlists_loadMore_idle {s : Feed} (h : s.isLoading = false) :
    (Playlists.loadMore s).requests = s.requests ++ [(s.offset, s.limit)] ∧
      (Playlists.loadMore s).pending = s.pending ++ [Phase.awaitFetch] ∧
      (Playlists.loadMore s).isLoading = true ∧ (Playlists.loadMore s).offset = s.offset ∧
      (Playlists.loadMore s).limit = s.limit := by
  simp [Playlists.loadMore, h]

theorem playlists_loadMore_length (s : Feed) :
    s.pending.length ≤ (Playlists.loadMore s).pending.length := by
  unfold Playlists.loadMore; split <;> simp

theorem playlists_loadMore_offset (s : Feed) : (Playlists.loadMore s).offset = s.offset := by
  unfold Playlists.loadMore; split <;> rfl

theorem tracks_loadMore_idle {s : Feed} (h : s.isLoading = false) :
    (Tracks.loadMore s).requests = s.requests ++ [(s.offset, s.limit)] ∧
      (Tracks.loadMore s).pending = s.pending ++ [Phase.awaitFetch] ∧
      (Tracks.loadMore s).isLoading = true ∧ (Tracks.loadMore s).offset = s.offset ∧
      (Tracks.loadMore s).limit = s.limit := by
  simp [Tracks.loadMore, h]

theorem tracks_loadMore_length (s : Feed) :
    s.pending.length ≤ (Tracks.loadMore s).pending.length := by
  unfold Tracks.loadMore; split <;> simp

theorem tracks_loadMore_offset (s : Feed) : (Tracks.loadMore s).offset = s.offset := by
  unfold Tracks.loadMore; split <;> rfl

theorem playlists_step_inv {s : Feed} (h : s.Inv) (e : Event) : (Playlists.step s e).Inv := by
  cases e with
  | click => simp only [Playlists.step]; split; exact playlists_loadMore_inv h; exact h
  | sentinelIntersecting =>
    simp only [Playlists.step]; split
    · split; exact playlists_loadMore_inv h; exact h
    · exact h
  | scroll a b c =>
    simp only [Playlists.step]; split
    · split; exact playlists_loadMore_inv h; exact h
    · exact h
  | fetchRejected i =>
    simp only [Playlists.step]; split
    · rename_i hp; exact finish_inv i s h.length_le (pending_lt hp)
    · exact h
  | fetchResolved i ok =>
    simp only [Playlists.step]; split
    · simpa [Feed.Inv, Playlists.onFetchResolved] using h
    · exact h
  | jsonRejected i =>
    simp only [Playlists.step]; split
    · rename_i hp; exact finish_inv i s h.length_le (pending_lt hp)
    · exact h
  | jsonResolved i data =>
    simp only [Playlists.step]; split
    · rename_i hp
      obtain ⟨s1, he, hpd, _⟩ := playlists_onJsonResolved_eq_finish i data s
      rw [he]
      exact finish_inv i s1 (hpd ▸ h.length_le) (hpd ▸ pending_lt hp)
    · exact h

theorem tracks_step_inv {s : Feed} (h : s.Inv) (e : Event) : (Tracks.step s e).Inv := by
  cases e with
  | click => simp only [Tracks.step]; split; exact tracks_loadMore_inv h; exact h
  | sentinelIntersecting =>
    simp only [Tracks.step]; split
    · split; exact tracks_loadMore_inv h; exact h
    · exact h
  | scroll a b c => exact h
  | fetchRejected i =>
    simp only [Tracks.step]; split
    · rename_i hp
      exact finish_inv i (Tracks.catchBlock s) h.length_le (pending_lt hp)
    · exact h
  | fetchResolved i ok =>
    simp only [Tracks.step]; split
    · rename_i hp
      unfold Tracks.onFetchResolved
      split
      · exact finish_inv i (Tracks.catchBlock s) h.length_le (pending_lt hp)
      · simpa [Feed.Inv] using h
    · exact h
  | jsonRejected i =>
    simp only [Tracks.step]; split
    · rename_i hp
      exact finish_inv i (Tracks.catchBlock s) h.length_le (pending_lt hp)
    · exact h
  | jsonResolved i data =>
    simp only [Tracks.step]; split
    · rename_i hp
      obtain ⟨s1, he, hpd, _⟩ := tracks_onJsonResolved_eq_finish i data s
      rw [he]
      exact finish_inv i s1 (hpd ▸ h.length_le) (hpd ▸ pending_lt hp)
    · exact h

theorem playlists_run_inv {s : Feed} (h : s.Inv) (evs : List Event) : (Playlists.run s evs).Inv := by
  induction evs generalizing s with
  | nil => exact h
  | cons e es ih => exact ih (playlists_step_inv h e)

theorem playlists_run_append (s : Feed) (xs ys : List Event) :
    Playlists.run s (xs ++ ys) = Playlists.run (Playlists.run s xs) ys := by
  simp [Playlists.run, List.foldl_append]

theorem playlists_run_triggers_of_loading {s : Feed} (h : s.isLoading = true) (ts : List Event)
    (hts : ∀ e ∈ ts, e.isTrigger = true) : Playlists.run s ts = s := by
  induction ts with
  | nil => rfl
  | cons e es ih =>
    have he : Playlists.step s e = s := playlists_step_trigger_of_loading h (hts e (List.mem_cons_self _ _))
    have : Playlists.run s (e :: es) = Playlists.run (Playlists.step s e) es := rfl
    rw [this, he]
    exact ih (fun x hx => hts x (List.mem_cons_of_mem _ hx))

theorem playlists_mutualExclusion_of_inv {t : Feed} (h : t.Inv) : MutualExclusion Playlists.step t :=
  ⟨le_trans (fetchesInFlight_le t) h.length_le, h.length_le,
    fun hl _ he => playlists_step_trigger_of_loading hl he⟩

theorem tracks_run_inv {s : Feed} (h : s.Inv) (evs : List Event) : (Tracks.run s evs).Inv := by
  induction evs generalizing s with
  | nil => exact h
  | cons e es ih => exact ih (tracks_step_inv h e)

theorem tracks_run_append (s : Feed) (xs ys : List Event) :
    Tracks.run s (xs ++ ys) = Tracks.run (Tracks.run s xs) ys := by
  simp [Tracks.run, List.foldl_append]

theorem tracks_run_triggers_of_loading {s : Feed} (h : s.isLoading = true) (ts : List Event)
    (hts : ∀ e ∈ ts, e.isTrigger = true) : Tracks.run s ts = s := by
  induction ts with
  | nil => rfl
  | cons e es ih =>
    have he : Tracks.step s e = s := tracks_step_trigger_of_loading h (hts e (List.mem_cons_self _ _))
    have : Tracks.run s (e :: es) = Tracks.run (Tracks.step s e) es := rfl
    rw [this, he]
    exact ih (fun x hx => hts x (List.mem_cons_of_mem _ hx))

theorem tracks_mutualExclusion_of_inv {t : Feed} (h : t.Inv) : MutualExclusion Tracks.step t :=
  ⟨le_trans (fetchesInFlight_le t) h.length_le, h.length_le,
    fun hl _ he => tracks_step_trigger_of_loading hl he⟩

theorem playlists_loadMore_loading (s : Feed) : (Playlists.loadMore s).isLoading = true := by
  unfold Playlists.loadMore; split
  · assumption
  · rfl

theorem tracks_loadMore_loading (s : Feed) : (Tracks.loadMore s).isLoading = true := by
  unfold Tracks.loadMore; split
  · assumption
  · rfl

/-- From an idle state: the head of `loadMore`, any triggers, then the fetch
promise resolving (with `ok` true) leave the invocation waiting for the body. -/
theorem tracks_run_to_json {s : Feed} (hs : s.Idle) (ts : List Event)
    (hts : ∀ e ∈ ts, e.isTrigger = true) :
    Tracks.run (Tracks.loadMore s) (ts ++ [Event.fetchResolved 0 true]) =
      { Tracks.loadMore s with pending := [Phase.awaitJson] } := by
  rw [tracks_run_append, tracks_run_triggers_of_loading (tracks_loadMore_loading s) ts hts]
  obtain ⟨hl, hp⟩ := hs
  simp [Tracks.run, Tracks.step, Tracks.loadMore, hl, hp, Tracks.onFetchResolved]

theorem playlists_run_to_json_any {s : Feed} (hs : s.Idle) (ts : List Event)
    (hts : ∀ e ∈ ts, e.isTrigger = true) (ok : Bool) :
    Playlists.run (Playlists.loadMore s) (ts ++ [Event.fetchResolved 0 ok]) =
      { Playlists.loadMore s with pending := [Phase.awaitJson] } := by
  rw [playlists_run_append, playlists_run_triggers_of_loading (playlists_loadMore_loading s) ts hts]
  obtain ⟨hl, hp⟩ := hs
  simp [Playlists.run, Playlists.step, Playlists.loadMore, hl, hp, Playlists.onFetchResolved]

theorem playlists_renderItems_of_no_null (items : List Item)
    (h : ∀ x ∈ items, x ≠ Item.null) : Playlists.renderItems true items = (items, true) := by
  induction items with
  | nil => rfl
  | cons x xs ih =>
    have hx : x ≠ Item.null := h x (List.mem_cons_self _ _)
    have ih1 := ih (fun y hy => h y (List.mem_cons_of_mem _ hy))
    simp [Playlists.renderItems, hx, ih1]

theorem tracks_renderItems_of_no_null (items : List Item)
    (h : ∀ x ∈ items, x ≠ Item.null) : Tracks.renderItems items = (items, true) := by
  induction items with
  | nil => rfl
  | cons x xs ih =>
    have hx : x ≠ Item.null := h x (List.mem_cons_self _ _)
    have ih1 := ih (fun y hy => h y (List.mem_cons_of_mem _ hy))
    simp [Tracks.renderItems, hx, ih1]

theorem finish_offset (i : Nat) (s : Feed) : (finish i s).offset = s.offset := rfl

theorem playlists_step_offset (s : Feed) (e : Event) :
    (Playlists.step s e).offset = s.offset ∨
      ∃ k : Nat, (Playlists.step s e).offset = numAdd s.offset k := by
  cases e with
  | click => simp only [Playlists.step]; split <;> simp [playlists_loadMore_offset]
  | sentinelIntersecting =>
    simp only [Playlists.step]; split
    · split <;> simp [playlists_loadMore_offset]
    · exact Or.inl rfl
  | scroll a b c =>
    simp only [Playlists.step]; split
    · split <;> simp [playlists_loadMore_offset]
    · exact Or.inl rfl
  | fetchRejected i => simp only [Playlists.step]; split <;> exact Or.inl rfl
  | fetchResolved i ok => simp only [Playlists.step]; split <;> exact Or.inl rfl
  | jsonRejected i => simp only [Playlists.step]; split <;> exact Or.inl rfl
  | jsonResolved i data =>
    simp only [Playlists.step]; split
    · obtain ⟨s1, he, _, ho⟩ := playlists_onJsonResolved_eq_finish i data s
      rw [he, finish_offset]; exact ho
    · exact Or.inl rfl

theorem tracks_step_offset (s : Feed) (e : Event) :
    (Tracks.step s e).offset = s.offset ∨
      ∃ k : Nat, (Tracks.step s e).offset = numAdd s.offset k := by
  cases e with
  | click => simp only [Tracks.step]; split <;> simp [tracks_loadMore_offset]
  | sentinelIntersecting =>
    simp only [Tracks.step]; split
    · split <;> simp [tracks_loadMore_offset]
    · exact Or.inl rfl
  | scroll a b c => exact Or.inl rfl
  | fetchRejected i => simp only [Tracks.step]; split <;> exact Or.inl rfl
  | fetchResolved i ok =>
    simp only [Tracks.step]; split
    · unfold Tracks.onFetchResolved; split <;> exact Or.inl rfl
    · exact Or.inl rfl
  | jsonRejected i => simp only [Tracks.step]; split <;> exact Or.inl rfl
  | jsonResolved i data =>
    simp only [Tracks.step]; split
    · obtain ⟨s1, he, _, ho⟩ := tracks_onJsonResolved_eq_finish i data s
      rw [he, finish_offset]; exact ho
    · exact Or.inl rfl

/-- An offset that is a double stays a double and does not decrease when it is
kept or a length is added to it. -/
theorem offset_step_ok {a b : Nat} (ha : Representable a)
    (h : b = a ∨ ∃ k : Nat, b = numAdd a k) : Representable b ∧ a ≤ b := by
  rcases h with h | ⟨k, h⟩
  · rw [h]; exact ⟨ha, le_refl _⟩
  · rw [h]; exact ⟨representable_roundToDouble _, le_numAdd ha k⟩

theorem playlists_run_offset_le (s : Feed) (evs : List Event) (h : Representable s.offset) :
    Representable (Playlists.run s evs).offset ∧ s.offset ≤ (Playlists.run s evs).offset := by
  induction evs generalizing s with
  | nil => exact ⟨h, le_refl _⟩
  | cons e es ih =>
    obtain ⟨h1, h2⟩ := offset_step_ok h (playlists_step_offset s e)
    obtain ⟨h3, h4⟩ := ih (Playlists.step s e) h1
    exact ⟨h3, le_trans h2 h4⟩

theorem tracks_run_offset_le (s : Feed) (evs : List Event) (h : Representable s.offset) :
    Representable (Tracks.run s evs).offset ∧ s.offset ≤ (Tracks.run s evs).offset := by
  induction evs generalizing s with
  | nil => exact ⟨h, le_refl _⟩
  | cons e es ih =>
    obtain ⟨h1, h2⟩ := offset_step_ok h (tracks_step_offset s e)
    obtain ⟨h3, h4⟩ := ih (Tracks.step s e) h1
    exact ⟨h3, le_trans h2 h4⟩

theorem representable_pageLimitOr (attr : Option Nat) (dflt : Nat) (h : Representable dflt) :
    Representable (pageLimitOr attr dflt) := by
  unfold pageLimitOr
  split
  · split
    · exact h
    · exact representable_roundToDouble _
  · exact h

theorem playlists_init_representable (c : PageConfig) :
    Representable (Playlists.init c).offset := by
  unfold Playlists.init
  dsimp only
  split
  · exact representable_roundToDouble _
  · exact representable_pageLimitOr _ _ (roundToDouble_of_lt (by norm_num))

theorem tracks_init_representable (c : PageConfig) (s : Feed) (h : Tracks.init c = some s) :
    Representable s.offset := by
  unfold Tracks.init at h
  dsimp only at h
  split at h
  · exact absurd h (by simp)
  · split at h
    · exact absurd h (by simp)
    · simp only [Option.some.injEq] at h
      rw [← h]
      dsimp only
      split
      · exact representable_roundToDouble _
      · exact representable_pageLimitOr _ _ (roundToDouble_of_lt (by norm_num))

theorem playlists_step_cases (t : Feed) (e : Event) :
    t.pending.length ≤ (Playlists.step t e).pending.length ∨
      ∃ (i : Nat) (s1 : Feed), Playlists.step t e = finish i s1 ∧ s1.pending = t.pending ∧
        i < t.pending.length := by
  cases e with
  | click =>
    simp only [Playlists.step]; split
    · exact Or.inl (playlists_loadMore_length t)
    · exact Or.inl (le_refl _)
  | sentinelIntersecting =>
    simp only [Playlists.step]; split
    · split
      · exact Or.inl (playlists_loadMore_length t)
      · exact Or.inl (le_refl _)
    · exact Or.inl (le_refl _)
  | scroll a b c =>
    simp only [Playlists.step]; split
    · split
      · exact Or.inl (playlists_loadMore_length t)
      · exact Or.inl (le_refl _)
    · exact Or.inl (le_refl _)
  | fetchRejected i =>
    simp only [Playlists.step]; split
    · rename_i hp; exact Or.inr ⟨i, t, rfl, rfl, pending_lt hp⟩
    · exact Or.inl (le_refl _)
  | fetchResolved i ok =>
    simp only [Playlists.step]; split
    · left; simp [Playlists.onFetchResolved]
    · exact Or.inl (le_refl _)
  | jsonRejected i =>
    simp only [Playlists.step]; split
    · rename_i hp; exact Or.inr ⟨i, t, rfl, rfl, pending_lt hp⟩
    · exact Or.inl (le_refl _)
  | jsonResolved i data =>
    simp only [Playlists.step]; split
    · rename_i hp
      obtain ⟨s1, he, hpd, _⟩ := playlists_onJsonResolved_eq_finish i data t
      exact Or.inr ⟨i, s1, he, hpd, pending_lt hp⟩
    · exact Or.inl (le_refl _)

theorem tracks_step_cases (t : Feed) (e : Event) :
    t.pending.length ≤ (Tracks.step t e).pending.length ∨
      ∃ (i : Nat) (s1 : Feed), Tracks.step t e = finish i s1 ∧ s1.pending = t.pending ∧
        i < t.pending.length := by
  cases e with
  | click =>
    simp only [Tracks.step]; split
    · exact Or.inl (tracks_loadMore_length t)
    · exact Or.inl (le_refl _)
  | sentinelIntersecting =>
    simp only [Tracks.step]; split
    · split
      · exact Or.inl (tracks_loadMore_length t)
      · exact Or.inl (le_refl _)
    · exact Or.inl (le_refl _)
  | scroll a b c => exact Or.inl (le_refl _)
  | fetchRejected i =>
    simp only [Tracks.step]; split
    · rename_i hp; exact Or.inr ⟨i, Tracks.catchBlock t, rfl, rfl, pending_lt hp⟩
    · exact Or.inl (le_refl _)
  | fetchResolved i ok =>
    simp only [Tracks.step]; split
    · rename_i hp
      unfold Tracks.onFetchResolved
      split
      · exact Or.inr ⟨i, Tracks.catchBlock t, rfl, rfl, pending_lt hp⟩
      · left; simp
    · exact Or.inl (le_refl _)
  | jsonRejected i =>
    simp only [Tracks.step]; split
    · rename_i hp; exact Or.inr ⟨i, Tracks.catchBlock t, rfl, rfl, pending_lt hp⟩
    · exact Or.inl (le_refl _)
  | jsonResolved i data =>
    simp only [Tracks.step]; split
    · rename_i hp
      obtain ⟨s1, he, hpd, _⟩ := tracks_onJsonResolved_eq_finish i data t
      exact Or.inr ⟨i, s1, he, hpd, pending_lt hp⟩
    · exact Or.inl (le_refl _)

theorem playlists_clearedOnCompletion_of_inv {t : Feed} (h : t.Inv) :
    ClearedOnCompletion Playlists.loadMore Playlists.step t := by
  refine ⟨?_, fun hl => playlists_loadMore_of_loading hl, ?_⟩
  · unfold Feed.Inv at h
    cases hl : t.isLoading
    · rw [hl] at h; simp at h; simp [h]
    · rw [hl] at h
      simp only [if_true] at h
      have : t.pending ≠ [] := fun hn => by rw [hn] at h; simp at h
      simp [this]
  · intro e hlt
    rcases playlists_step_cases t e with hle | ⟨i, s1, he, hpd, hi⟩
    · omega
    · have hidle : (finish i s1).Idle := finish_idle i s1 (hpd ▸ h.length_le) (hpd ▸ hi)
      rw [he]
      refine ⟨hidle, (playlists_loadMore_idle hidle.1).1, ?_⟩
      rw [(playlists_loadMore_idle hidle.1).2.1, hidle.2]
      rfl

theorem playlists_settlingEndsCall (t : Feed) : SettlingEndsCall Playlists.step t := by
  refine ⟨fun h => ?_, fun h => ⟨?_, fun data => ?_⟩⟩
  · simp [Playlists.step, h, Playlists.onFetchRejected, finish]
  · simp [Playlists.step, h, Playlists.onJsonRejected, finish]
  · obtain ⟨s1, he, hpd, _⟩ := playlists_onJsonResolved_eq_finish 0 data t
    simp [Playlists.step, h, he, finish, hpd]

theorem tracks_clearedOnCompletion_of_inv {t : Feed} (h : t.Inv) :
    ClearedOnCompletion Tracks.loadMore Tracks.step t := by
  refine ⟨?_, fun hl => tracks_loadMore_of_loading hl, ?_⟩
  · unfold Feed.Inv at h
    cases hl : t.isLoading
    · rw [hl] at h; simp at h; simp [h]
    · rw [hl] at h
      simp only [if_true] at h
      have : t.pending ≠ [] := fun hn => by rw [hn] at h; simp at h
      simp [this]
  · intro e hlt
    rcases tracks_step_cases t e with hle | ⟨i, s1, he, hpd, hi⟩
    · omega
    · have hidle : (finish i s1).Idle := finish_idle i s1 (hpd ▸ h.length_le) (hpd ▸ hi)
      rw [he]
      refine ⟨hidle, (tracks_loadMore_idle hidle.1).1, ?_⟩
      rw [(tracks_loadMore_idle hidle.1).2.1, hidle.2]
      rfl

theorem tracks_settlingEndsCall (t : Feed) : SettlingEndsCall Tracks.step t := by
  refine ⟨fun h => ?_, fun h => ⟨?_, fun data => ?_⟩⟩
  · simp [Tracks.step, h, Tracks.onFetchRejected, finish, Tracks.catchBlock]
  · simp [Tracks.step, h, Tracks.onJsonRejected, finish, Tracks.catchBlock]
  · obtain ⟨s1, he, hpd, _⟩ := tracks_onJsonResolved_eq_finish 0 data t
    simp [Tracks.step, h, he, finish, hpd]

theorem attrTruthy_promote (img : Img) : attrTruthy (promote img).dataSrc = false := rfl

theorem observeLazyImage_of_promoted {p : ImagePage} {i : Nat} {img : Img}
    (h : Promoted p i img) : LazyImages.observeLazyImage p i = p := by
  unfold Promoted at h
  simp [LazyImages.observeLazyImage, h, attrTruthy_promote]

theorem observeImage_of_promoted {p : ImagePage} {i : Nat} {img : Img}
    (h : Promoted p i img) : Tracks.observeImage p i = p := by
  unfold Promoted at h
  simp [Tracks.observeImage, h, attrTruthy_promote]

theorem imgs_lt {p : ImagePage} {i : Nat} {img : Img} (h : p.imgs[i]? = some img) :
    i < p.imgs.length := by
  obtain ⟨hi, _⟩ := List.getElem?_eq_some_iff.mp h
  exact hi

/-- A load from an idle state whose body holds an `items` array without `null`,
on a page with the grid: the offset afterwards is the number sum of the old
offset and the array length (playlists.js). -/
theorem playlists_success_offset {s : Feed} (hs : s.Idle) (hg : s.gridPresent = true)
    (ts1 ts2 : List Event) (h1 : ∀ e ∈ ts1, e.isTrigger = true)
    (h2 : ∀ e ∈ ts2, e.isTrigger = true) (ok : Bool) (items : List Item)
    (hitems : ∀ x ∈ items, x ≠ Item.null) (cont : JsVal) :
    (Playlists.run (Playlists.loadMore s)
        (ts1 ++ [Event.fetchResolved 0 ok] ++ ts2 ++
          [Event.jsonResolved 0 (Data.props (JsVal.arr items) cont)])).offset
      = numAdd s.offset items.length := by
  have hPj := playlists_run_to_json_any hs ts1 h1 ok
  obtain ⟨hl, hp⟩ := hs
  rw [playlists_run_append, playlists_run_append, hPj,
    playlists_run_triggers_of_loading (by simp [Playlists.loadMore, hl]) ts2 h2]
  simp only [Playlists.run, List.foldl, Playlists.step]
  simp [Playlists.loadMore, hl, hp, Playlists.onJsonResolved, itemsOrEmpty, JsVal.truthy, hg,
    playlists_renderItems_of_no_null items hitems]
  split <;> simp [finish]

/-- The same for tracks.js, where the response has to be ok. -/
theorem tracks_success_offset {s : Feed} (hs : s.Idle)
    (ts1 ts2 : List Event) (h1 : ∀ e ∈ ts1, e.isTrigger = true)
    (h2 : ∀ e ∈ ts2, e.isTrigger = true) (items : List Item)
    (hitems : ∀ x ∈ items, x ≠ Item.null) (cont : JsVal) :
    (Tracks.run (Tracks.loadMore s)
        (ts1 ++ [Event.fetchResolved 0 true] ++ ts2 ++
          [Event.jsonResolved 0 (Data.props (JsVal.arr items) cont)])).offset
      = numAdd s.offset items.length := by
  have hTj := tracks_run_to_json hs ts1 h1
  obtain ⟨hl, hp⟩ := hs
  rw [tracks_run_append, tracks_run_append, hTj,
    tracks_run_triggers_of_loading (by simp [Tracks.loadMore, hl]) ts2 h2]
  simp only [Tracks.run, List.foldl, Tracks.step]
  simp [Tracks.loadMore, hl, hp, Tracks.onJsonResolved, itemsOrEmpty, JsVal.truthy,
    tracks_renderItems_of_no_null items hitems]
  split <;> simp [finish]

theorem hugeOffsetPage_offset : (Playlists.init hugeOffsetPage).offset = 2 ^ 53 := by
  show roundToDouble (2 ^ 53) = 2 ^ 53
  have h := numAdd_exact (a := 2 ^ 53) (b := 0) (le_refl _)
  simpa [numAdd] using h

/-! ## Claims -/

/-- C1. Mutual exclusion of fetches: in every state reached from an idle page
by any interleaving of clicks, sentinel notifications, scroll events and
settlings of the fetch and JSON promises, at most one fetch (and at most one
invocation of `loadMore`) is in flight, and a trigger arriving while
`isLoading` holds leaves the whole state unchanged; for playlists.js and for
tracks.js. -/
theorem mutual_exclusion_of_fetches (s : Feed) (hs : s.Idle) (evs : List Event) :
    MutualExclusion Playlists.step (Playlists.run s evs) ∧
      MutualExclusion Tracks.step (Tracks.run s evs) :=
  ⟨playlists_mutualExclusion_of_inv (playlists_run_inv hs.inv evs),
    tracks_mutualExclusion_of_inv (tracks_run_inv hs.inv evs)⟩

theorem mutual_exclusion_of_fetches_witness :
    playlistsStart.Idle ∧
      (MutualExclusion Playlists.step
          (Playlists.run playlistsStart
            [Event.click, Event.sentinelIntersecting, Event.fetchResolved 0 true, Event.click]) ∧
        MutualExclusion Tracks.step
          (Tracks.run playlistsStart
            [Event.click, Event.sentinelIntersecting, Event.fetchResolved 0 true, Event.click])) :=
  ⟨by decide, mutual_exclusion_of_fetches playlistsStart (by decide) _⟩

/-- C4. Failure does not advance the cursor: if `loadMore` is started in an
idle state with offset `o` and the fetch rejects, or the response is not ok
(tracks), or the parsing of the body rejects, with any triggers arriving in
between, then afterwards the offset is still `o`, the feed is idle, and the
next call of `loadMore` issues a fetch with offset `o` again; for playlists.js
and for tracks.js. -/
theorem failure_keeps_offset (s : Feed) (hs : s.Idle) (ts1 ts2 : List Event)
    (h1 : ∀ e ∈ ts1, e.isTrigger = true) (h2 : ∀ e ∈ ts2, e.isTrigger = true) (ok : Bool) :
    RetriesSameOffset Playlists.loadMore s
        (Playlists.run (Playlists.loadMore s) (ts1 ++ [Event.fetchRejected 0])) ∧
      RetriesSameOffset Playlists.loadMore s
        (Playlists.run (Playlists.loadMore s)
          (ts1 ++ [Event.fetchResolved 0 ok] ++ ts2 ++ [Event.jsonRejected 0])) ∧
      RetriesSameOffset Tracks.loadMore s
        (Tracks.run (Tracks.loadMore s) (ts1 ++ [Event.fetchRejected 0])) ∧
      RetriesSameOffset Tracks.loadMore s
        (Tracks.run (Tracks.loadMore s) (ts1 ++ [Event.fetchResolved 0 false])) ∧
      RetriesSameOffset Tracks.loadMore s
        (Tracks.run (Tracks.loadMore s)
          (ts1 ++ [Event.fetchResolved 0 true] ++ ts2 ++ [Event.jsonRejected 0])) := by
  have hP := playlists_loadMore_loading s
  have hT := tracks_loadMore_loading s
  have hPj := playlists_run_to_json_any hs ts1 h1 ok
  have hTj := tracks_run_to_json hs ts1 h1
  obtain ⟨hl, hp⟩ := hs
  refine ⟨?_, ?_, ?_, ?_, ?_⟩
  · rw [playlists_run_append, playlists_run_triggers_of_loading hP ts1 h1]
    simp [RetriesSameOffset, Playlists.run, Playlists.step, Playlists.loadMore, hl, hp,
      Playlists.onFetchRejected, finish]
  · rw [playlists_run_append, playlists_run_append, hPj,
      playlists_run_triggers_of_loading (by simp [Playlists.loadMore, hl]) ts2 h2]
    simp [RetriesSameOffset, Playlists.run, Playlists.step, Playlists.loadMore, hl, hp,
      Playlists.onJsonRejected, finish]
  · rw [tracks_run_append, tracks_run_triggers_of_loading hT ts1 h1]
    simp [RetriesSameOffset, Tracks.run, Tracks.step, Tracks.loadMore, hl, hp,
      Tracks.onFetchRejected, Tracks.catchBlock, finish]
  · rw [tracks_run_append, tracks_run_triggers_of_loading hT ts1 h1]
    simp [RetriesSameOffset, Tracks.run, Tracks.step, Tracks.loadMore, hl, hp,
      Tracks.onFetchResolved, Tracks.catchBlock, finish]
  · rw [tracks_run_append, tracks_run_append, hTj,
      tracks_run_triggers_of_loading (by simp [Tracks.loadMore, hl]) ts2 h2]
    simp [RetriesSameOffset, Tracks.run, Tracks.step, Tracks.loadMore, hl, hp,
      Tracks.onJsonRejected, Tracks.catchBlock, finish]

theorem failure_keeps_offset_witness :
    tracksStart.Idle ∧
      RetriesSameOffset Tracks.loadMore tracksStart
        (Tracks.run (Tracks.loadMore tracksStart)
          ([Event.click] ++ [Event.fetchResolved 0 false])) :=
  ⟨by decide,
    (failure_keeps_offset tracksStart (by decide) [Event.click] [Event.sentinelIntersecting]
      (by decide) (by decide) true).2.2.2.1⟩

/-- C6, as the code has it. Cursor advance on success: when `loadMore` is
started in an idle state with offset `o` and the body parses to an `items`
array of `n` items that are all rendered (none `null`, and the grid present
for playlists) with `o + n` at most 2^53, the offset afterwards is exactly
`o + n`; an offset that is a double never decreases over any sequence of
events, and the start offset of either script is a double; and from offset 50
with limit 50 a page of fifty items with a truthy continuation gives offset
100 with button and sentinel still attached and the button enabled under its
idle label; for playlists.js and for tracks.js. -/
theorem cursor_advances_by_page_size (s : Feed) (hs : s.Idle) (ts1 ts2 : List Event)
    (h1 : ∀ e ∈ ts1, e.isTrigger = true) (h2 : ∀ e ∈ ts2, e.isTrigger = true) (ok : Bool)
    (items : List Item) (hitems : ∀ x ∈ items, x ≠ Item.null) (cont : JsVal)
    (hb : s.offset + items.length ≤ 2 ^ 53) :
    (s.gridPresent = true →
        (Playlists.run (Playlists.loadMore s)
          (ts1 ++ [Event.fetchResolved 0 ok] ++ ts2 ++
            [Event.jsonResolved 0 (Data.props (JsVal.arr items) cont)])).offset
          = s.offset + items.length) ∧
      (Tracks.run (Tracks.loadMore s)
          (ts1 ++ [Event.fetchResolved 0 true] ++ ts2 ++
            [Event.jsonResolved 0 (Data.props (JsVal.arr items) cont)])).offset
          = s.offset + items.length ∧
      (∀ (t : Feed) (evs : List Event), Representable t.offset →
        t.offset ≤ (Playlists.run t evs).offset ∧ t.offset ≤ (Tracks.run t evs).offset) ∧
      ((∀ c : PageConfig, Representable (Playlists.init c).offset) ∧
        ∀ (c : PageConfig) (t : Feed), Tracks.init c = some t → Representable t.offset) ∧
      (let t := Playlists.run playlistsStart (fiftyItemLoad (JsVal.str "next-page-url"))
       playlistsStart.offset = 50 ∧ playlistsStart.limit = 50 ∧ t.offset = 100 ∧
        t.btnAttached = true ∧ t.sentinelAttached = true ∧ t.isLoading = false ∧
        t.btn = some { disabled := false, textContent := Label.loadMorePlaylists,
                       dataOffset := some 50 }) ∧
      (let t := Tracks.run tracksStart (fiftyItemLoad (JsVal.num 100))
       tracksStart.offset = 50 ∧ tracksStart.limit = 50 ∧ t.offset = 100 ∧
        t.btnAttached = true ∧ t.sentinelAttached = true ∧ t.isLoading = false ∧
        t.btn = some { disabled := false, textContent := Label.loadMoreTracks,
                       dataOffset := some 100 }) := by
  refine ⟨?_, ?_, ?_, ⟨playlists_init_representable, tracks_init_representable⟩, ?_, ?_⟩
  · intro hg
    rw [playlists_success_offset hs hg ts1 ts2 h1 h2 ok items hitems cont, numAdd_exact hb]
  · rw [tracks_success_offset hs ts1 ts2 h1 h2 items hitems cont, numAdd_exact hb]
  · exact fun t evs ht =>
      ⟨(playlists_run_offset_le t evs ht).2, (tracks_run_offset_le t evs ht).2⟩
  · decide
  · decide

theorem cursor_advances_by_page_size_witness :
    playlistsStart.Idle ∧ playlistsStart.gridPresent = true ∧
      playlistsStart.offset + [Item.value 1, Item.value 2].length ≤ 2 ^ 53 ∧
      (Playlists.run (Playlists.loadMore playlistsStart)
          ([] ++ [Event.fetchResolved 0 true] ++ [Event.click] ++
            [Event.jsonResolved 0
              (Data.props (JsVal.arr [Item.value 1, Item.value 2]) JsVal.undefined)])).offset
        = playlistsStart.offset + [Item.value 1, Item.value 2].length :=
  ⟨by decide, by decide, by decide,
    (cursor_advances_by_page_size playlistsStart (by decide) [] [Event.click] (by decide)
      (by decide) true [Item.value 1, Item.value 2] (by decide) JsVal.undefined
      (by decide)).1 (by decide)⟩

/-- C6, as stated, fails. On the playlists page whose button carries
`data-offset="9007199254740992"` (2^53) a successful page of one item leaves
the offset at 2^53, not 2^53 + 1: the sum is a JavaScript number and is rounded
to the nearest double. And on a page without `#playlists-grid` a successful
response with two items leaves the offset at 50: rendering throws before the
offset is advanced. -/
theorem offset_after_page_is_not_always_the_sum :
    (Playlists.init hugeOffsetPage).Idle ∧ (Playlists.init hugeOffsetPage).offset = 2 ^ 53 ∧
      (Playlists.run (Playlists.loadMore (Playlists.init hugeOffsetPage))
          [Event.fetchResolved 0 true,
            Event.jsonResolved 0
              (Data.props (JsVal.arr [Item.value 0]) (JsVal.str "next-page-url"))]).offset
        = 2 ^ 53 ∧
      (Playlists.run (Playlists.loadMore (Playlists.init hugeOffsetPage))
          [Event.fetchResolved 0 true,
            Event.jsonResolved 0
              (Data.props (JsVal.arr [Item.value 0]) (JsVal.str "next-page-url"))]).offset
        ≠ (Playlists.init hugeOffsetPage).offset + [Item.value 0].length ∧
      (Playlists.init gridlessPage).offset = 50 ∧
      (Playlists.run (Playlists.loadMore (Playlists.init gridlessPage))
          [Event.fetchResolved 0 true,
            Event.jsonResolved 0
              (Data.props (JsVal.arr [Item.value 0, Item.value 1])
                (JsVal.str "next-page-url"))]).offset = 50 := by
  have hidle : (Playlists.init hugeOffsetPage).Idle := ⟨rfl, rfl⟩
  have h := playlists_success_offset hidle rfl [] [] (by simp) (by simp) true [Item.value 0]
    (by decide) (JsVal.str "next-page-url")
  have hrun : (Playlists.run (Playlists.loadMore (Playlists.init hugeOffsetPage))
      [Event.fetchResolved 0 true,
        Event.jsonResolved 0
          (Data.props (JsVal.arr [Item.value 0]) (JsVal.str "next-page-url"))]).offset
      = 2 ^ 53 := by
    have h2 : ([] ++ [Event.fetchResolved 0 true] ++ [] ++
        [Event.jsonResolved 0
          (Data.props (JsVal.arr [Item.value 0]) (JsVal.str "next-page-url"))] : List Event)
        = [Event.fetchResolved 0 true,
            Event.jsonResolved 0
              (Data.props (JsVal.arr [Item.value 0]) (JsVal.str "next-page-url"))] := rfl
    rw [h2, hugeOffsetPage_offset] at h
    rw [h]
    exact numAdd_two_pow_53_one
  refine ⟨hidle, hugeOffsetPage_offset, hrun, ?_, by decide, by decide⟩
  rw [hrun, hugeOffsetPage_offset]
  simp

/-- C7, as the code has it. In every state reached from an idle page the flag
`isLoading` is set exactly while an invocation of `loadMore` is suspended; a
call skipped at the guard leaves the state, flag included, as it is; every
event that ends the suspended invocation (rejected fetch, non-ok response on
tracks, rejected parse, a parsed body of any content) leaves the feed idle, and
a later call of `loadMore` then issues a fetch; for playlists.js and for
tracks.js. -/
theorem loading_flag_cleared_on_completion (s : Feed) (hs : s.Idle) (evs : List Event) :
    (ClearedOnCompletion Playlists.loadMore Playlists.step (Playlists.run s evs) ∧
        SettlingEndsCall Playlists.step (Playlists.run s evs)) ∧
      (ClearedOnCompletion Tracks.loadMore Tracks.step (Tracks.run s evs) ∧
        SettlingEndsCall Tracks.step (Tracks.run s evs) ∧
        ((Tracks.run s evs).pending = [Phase.awaitFetch] →
          (Tracks.step (Tracks.run s evs) (Event.fetchResolved 0 false)).pending = [])) := by
  refine ⟨⟨playlists_clearedOnCompletion_of_inv (playlists_run_inv hs.inv evs),
    playlists_settlingEndsCall _⟩,
    tracks_clearedOnCompletion_of_inv (tracks_run_inv hs.inv evs), tracks_settlingEndsCall _, ?_⟩
  intro h
  simp [Tracks.step, h, Tracks.onFetchResolved, finish, Tracks.catchBlock]

theorem loading_flag_cleared_on_completion_witness :
    tracksStart.Idle ∧
      ClearedOnCompletion Tracks.loadMore Tracks.step
        (Tracks.run tracksStart [Event.sentinelIntersecting, Event.click]) :=
  ⟨by decide,
    (loading_flag_cleared_on_completion tracksStart (by decide)
      [Event.sentinelIntersecting, Event.click]).2.1⟩

/-- C7, as stated, fails: after one click on the start page a second call of
`loadMore` returns at the guard, leaving no new suspended invocation, and
`isLoading` is still true when it has returned; in playlists.js and in
tracks.js. -/
theorem early_skip_keeps_flag_set :
    ¬ ClearedOnEveryExit Playlists.loadMore Playlists.step
        (Playlists.run playlistsStart [Event.click]) ∧
      ¬ ClearedOnEveryExit Tracks.loadMore Tracks.step
        (Tracks.run tracksStart [Event.click]) := by
  constructor
  · intro h
    exact absurd (h.1 (by decide)) (by decide)
  · intro h
    exact absurd (h.1 (by decide)) (by decide)

/-- C2, failing input. On the playlists page in a browser without the observer
API, a scroll near the bottom loads a page of twelve items whose body has no
`next`: button and sentinel are removed. The scroll listener stays installed
and `loadMore` has no exhaustion guard, so the next scroll near the bottom
issues a second fetch (offset 62), which is then in flight. -/
theorem playlists_scroll_fetches_after_exhaustion :
    (Playlists.init pageWithoutObserver).trigger = Installed.scrollFallback ∧
      (Playlists.run (Playlists.init pageWithoutObserver)
          (loadWith (Event.scroll 600 400 1000)
            (Data.props (JsVal.arr twelveItems) JsVal.undefined))).btnAttached = false ∧
      (Playlists.run (Playlists.init pageWithoutObserver)
          (loadWith (Event.scroll 600 400 1000)
            (Data.props (JsVal.arr twelveItems) JsVal.undefined))).sentinelAttached = false ∧
      (Playlists.run (Playlists.init pageWithoutObserver)
          (loadWith (Event.scroll 600 400 1000)
            (Data.props (JsVal.arr twelveItems) JsVal.undefined))).requests = [(50, 50)] ∧
      (Playlists.run (Playlists.init pageWithoutObserver)
          (loadWith (Event.scroll 600 400 1000)
              (Data.props (JsVal.arr twelveItems) JsVal.undefined) ++
            [Event.scroll 600 400 1000])).requests = [(50, 50), (62, 50)] ∧
      (Playlists.run (Playlists.init pageWithoutObserver)
          (loadWith (Event.scroll 600 400 1000)
              (Data.props (JsVal.arr twelveItems) JsVal.undefined) ++
            [Event.scroll 600 400 1000])).fetchesInFlight = 1 := by
  decide

/-- C3, failing input. On the playlists page a body with an empty `items`
array and a truthy `next` does not exhaust the feed: button and sentinel stay
attached, the button is enabled again, and the next sentinel notification
fetches offset 50 once more. On the tracks page the same body (truthy
`next_offset`) removes button and sentinel. -/
theorem playlists_empty_page_with_continuation_not_exhausted :
    (Playlists.run playlistsStart
        (loadWith Event.click (Data.props (JsVal.arr []) (JsVal.str "next-page-url")))
      ).btnAttached = true ∧
      (Playlists.run playlistsStart
        (loadWith Event.click (Data.props (JsVal.arr []) (JsVal.str "next-page-url")))
      ).sentinelAttached = true ∧
      (Playlists.run playlistsStart
        (loadWith Event.click (Data.props (JsVal.arr []) (JsVal.str "next-page-url")))
      ).btn = some { disabled := false, textContent := Label.loadMorePlaylists,
                     dataOffset := some 50 } ∧
      (Playlists.run playlistsStart
        (loadWith Event.click (Data.props (JsVal.arr []) (JsVal.str "next-page-url")) ++
          [Event.sentinelIntersecting])).requests = [(50, 50), (50, 50)] ∧
      (Tracks.run tracksStart
        (loadWith Event.click (Data.props (JsVal.arr []) (JsVal.num 50)))).btnAttached = false ∧
      (Tracks.run tracksStart
        (loadWith Event.click (Data.props (JsVal.arr []) (JsVal.num 50)))
      ).sentinelAttached = false := by
  decide

/-- C5, failing input. On the playlists page, when the fetch rejects (or the
parsing of the body rejects) `loadMore` ends with the button still disabled and
still showing the busy label, although `isLoading` is false again. On the
tracks page the `catch` block enables the button under its idle label. -/
theorem playlists_button_stays_busy_after_failure :
    (Playlists.run playlistsStart [Event.click, Event.fetchRejected 0]).btn
        = some { disabled := true, textContent := Label.busy, dataOffset := some 50 } ∧
      (Playlists.run playlistsStart [Event.click, Event.fetchRejected 0]).isLoading = false ∧
      (Playlists.run playlistsStart [Event.click, Event.fetchRejected 0]).pending = [] ∧
      (Playlists.run playlistsStart
          [Event.click, Event.fetchResolved 0 true, Event.jsonRejected 0]).btn
        = some { disabled := true, textContent := Label.busy, dataOffset := some 50 } ∧
      (Playlists.run playlistsStart
          [Event.click, Event.fetchResolved 0 true, Event.jsonRejected 0]).pending = [] ∧
      (Tracks.run tracksStart [Event.click, Event.fetchRejected 0]).btn
        = some { disabled := false, textContent := Label.loadMoreTracks,
                 dataOffset := some 50 } ∧
      (Tracks.run tracksStart [Event.click, Event.fetchResolved 0 true, Event.jsonRejected 0]).btn
        = some { disabled := false, textContent := Label.loadMoreTracks,
                 dataOffset := some 50 } := by
  decide

/-- C8, failing input. On the tracks page a parsed body without `items` and
with a truthy `next_offset` renders nothing and keeps the offset, but it
exhausts the feed: button and sentinel are removed and the observer is
disconnected, because line 126 also tests `items.length === 0`. On the
playlists page the same kind of body keeps button, sentinel and trigger and
enables the button under its idle label. -/
theorem tracks_missing_items_exhausts :
    ¬ EmptyPageKept Label.loadMoreTracks tracksStart
        (Tracks.run tracksStart
          (loadWith Event.click (Data.props JsVal.undefined (JsVal.num 150)))) ∧
      (Tracks.run tracksStart
          (loadWith Event.click (Data.props JsVal.undefined (JsVal.num 150)))).btnAttached
        = false ∧
      (Tracks.run tracksStart
          (loadWith Event.click (Data.props JsVal.undefined (JsVal.num 150)))).sentinelAttached
        = false ∧
      (Tracks.run tracksStart
          (loadWith Event.click (Data.props JsVal.undefined (JsVal.num 150)))).trigger
        = Installed.nothing ∧
      (Tracks.run tracksStart
          (loadWith Event.click (Data.props JsVal.undefined (JsVal.num 150)))).offset = 50 ∧
      (Tracks.run tracksStart
          (loadWith Event.click (Data.props JsVal.undefined (JsVal.num 150)))).rendered = [] ∧
      EmptyPageKept Label.loadMorePlaylists playlistsStart
        (Playlists.run playlistsStart
          (loadWith Event.click (Data.props JsVal.undefined (JsVal.str "next-page-url")))) := by
  refine ⟨?_, by decide, by decide, by decide, by decide, by decide, ?_⟩
  · intro h
    exact absurd h.2.2.2.1 (by decide)
  · unfold EmptyPageKept
    decide

/-- C10, failing input. With `rootMargin` 300 px and no observer API,
`createInfiniteScroll` installs the scroll listener, and a scroll event with
`innerHeight + scrollY = 500` on a body of height 1000 calls `loadMore`,
although 500 is below 1000 - 300: for every margin passed in, the listener
compares against `offsetHeight - 800`. -/
theorem scroll_fallback_ignores_rootMargin :
    InfiniteScroll.createInfiniteScroll true true (some 300) false = Installed.scrollFallback ∧
      InfiniteScroll.scrollInvokesLoadMore true true (some 300) 500 0 1000 = true ∧
      ¬ ((500 : Int) + 0 ≥ 1000 - 300) ∧
      ∀ (m : Nat) (innerHeight scrollY offsetHeight : Int),
        InfiniteScroll.scrollInvokesLoadMore true true (some m) innerHeight scrollY offsetHeight
          = decide (innerHeight + scrollY ≥ offsetHeight - 800) := by
  refine ⟨by decide, by decide, by decide, ?_⟩
  intro m a b c
  simp [InfiniteScroll.scrollInvokesLoadMore, InfiniteScroll.createInfiniteScroll,
    InfiniteScroll.onScroll]

/-- C9. Lazy-image registration is idempotent after promotion. An image with a
truthy `data-src` is promoted by the observer callback on an intersecting entry
and, when there is no observer, by the registration call itself; and on every
page state in which the image is promoted, calling `observeLazyImage`
(lazy-images.js) or `observeImage` (tracks.js) on it any number of times
returns the same page state: `src`, `data-src`, the `onload` assignment count
and the set of observed elements are unchanged. -/
theorem registration_idempotent_after_promotion (p : ImagePage) (i : Nat) (img : Img) (n : Nat)
    (hi : p.imgs[i]? = some img) (hsrc : attrTruthy img.dataSrc = true) :
    (Promoted (LazyImages.onIntersect p [(i, true)]) i img ∧
        (p.observerPresent = false → Promoted (LazyImages.observeLazyImage p i) i img) ∧
        Promoted (Tracks.onImageIntersect p [(i, true)]) i img ∧
        (p.observerPresent = false → Promoted (Tracks.observeImage p i) i img)) ∧
      (∀ q : ImagePage, Promoted q i img →
        (fun r => LazyImages.observeLazyImage r i)^[n] q = q ∧
          (fun r => Tracks.observeImage r i)^[n] q = q) := by
  have hlt := imgs_lt hi
  refine ⟨⟨?_, ?_, ?_, ?_⟩, ?_⟩
  · simp [Promoted, LazyImages.onIntersect, hi, hsrc, unobserve, hlt]
  · intro ho
    simp [Promoted, LazyImages.observeLazyImage, hi, hsrc, ho, hlt]
  · simp [Promoted, Tracks.onImageIntersect, hi, hsrc, unobserve, hlt]
  · intro ho
    simp [Promoted, Tracks.observeImage, hi, hsrc, ho, hlt]
  · intro q hq
    exact ⟨Function.iterate_fixed (observeLazyImage_of_promoted hq) n,
      Function.iterate_fixed (observeImage_of_promoted hq) n⟩

theorem registration_idempotent_after_promotion_witness :
    imagePage.imgs[0]? = some { src := none, dataSrc := some "cover.jpg", onloadAssignments := 0 } ∧
      attrTruthy (some "cover.jpg") = true ∧
      (fun r => LazyImages.observeLazyImage r 0)^[3] (LazyImages.onIntersect imagePage [(0, true)])
        = LazyImages.onIntersect imagePage [(0, true)] :=
  ⟨by decide, by decide,
    ((registration_idempotent_after_promotion imagePage 0
      { src := none, dataSrc := some "cover.jpg", onloadAssignments := 0 } 3
      (by decide) (by decide)).2 (LazyImages.onIntersect imagePage [(0, true)])
      (registration_idempotent_after_promotion imagePage 0
        { src := none, dataSrc := some "cover.jpg", onloadAssignments := 0 } 3
        (by decide) (by decide)).1.1).1⟩

end DiscogSpotify
